import Mathlib

/-!
Shallow embedding of the compositing and geometry engine of the badp/batgrl
terminal toolkit (files `nurses_2/widgets/widget.py`, `nurses_2/widgets/window.py`
and `batgrl/gadgets/graphics.py`), together with theorems settling the frozen
claims about it.  Python floats are modelled as rationals, machine bytes as
`Fin 256`, and the numpy per-cell blend arithmetic is modelled cell-wise (the
numpy operations involved are element-wise).
-/

/-- Modelled from the spec: the repository's `clamp(value, min, max)` helper
(module `nurses_2/clamp.py`, not under `src/`).  The spec says values are
"clamped to `[min, max]` (treating an unset bound as unbounded)"; the lower
bound is checked first. -/
def clampI (value : Int) (lo hi : Option Int) : Int :=
  match lo with
  | some m =>
    if value < m then m
    else
      match hi with
      | some M => if M < value then M else value
      | none => value
  | none =>
    match hi with
    | some M => if M < value then M else value
    | none => value

/-- Modelled from the spec: the same `clamp` helper at rational (Python float)
arguments with both bounds present, as used by the `Graphics.alpha` setter
(`clamp(float(alpha), 0.0, 1.0)`). -/
def clampQ (value lo hi : ℚ) : ℚ :=
  if value < lo then lo else if hi < value then hi else value

/-- Floor of a rational, written out on the numerator and denominator so that
it evaluates by kernel reduction (the denominator is positive, so Euclidean
division agrees with flooring). -/
def ratFloor (q : ℚ) : Int := q.num / (q.den : Int)

theorem ratFloor_eq_floor (q : ℚ) : ratFloor q = ⌊q⌋ := Rat.floor_def.symm

/-- Ceiling of a rational, computed from `ratFloor`. -/
def ratCeil (q : ℚ) : Int := -ratFloor (-q)

theorem ratCeil_eq_ceil (q : ℚ) : ratCeil q = ⌈q⌉ := by
  rw [ratCeil, ratFloor_eq_floor, Int.floor_neg, neg_neg]

/-- Python's builtin `round` on a float, restricted to rationals: round half to
even (banker's rounding), as used by `Widget.update_geometry` for size hints. -/
def pyRound (q : ℚ) : Int :=
  let f : Int := ratFloor q
  let frac : ℚ := q - (f : ℚ)
  if frac < 1 / 2 then f
  else if 1 / 2 < frac then f + 1
  else if f % 2 = 0 then f else f + 1

/-- Python's builtin `int` on a float, restricted to rationals: truncation
toward zero, as used by `Widget.update_geometry` for position hints
(`int(h * y_hint)`). -/
def pyTrunc (q : ℚ) : Int :=
  if 0 ≤ q then ratFloor q else ratCeil q

theorem pyRound_intCast (n : Int) : pyRound (n : ℚ) = n := by
  simp [pyRound, ratFloor_eq_floor]

theorem pyTrunc_intCast (n : Int) : pyTrunc (n : ℚ) = n := by
  unfold pyTrunc
  split <;> simp [ratFloor_eq_floor, ratCeil_eq_ceil]

/-- The nine anchor values of `nurses_2.widgets.widget_data_structures.Anchor`. -/
inductive Anchor : Type where
  | topLeft
  | topRight
  | bottomLeft
  | bottomRight
  | center
  | topCenter
  | bottomCenter
  | leftCenter
  | rightCenter
deriving DecidableEq

/-- Geometry-relevant state of a `Widget` (file `nurses_2/widgets/widget.py`):
stored size and position plus the hint inputs read by `update_geometry`. -/
@[ext]
structure WGeom : Type where
  height : Int
  width : Int
  top : Int
  left : Int
  hHint : Option ℚ
  wHint : Option ℚ
  minH : Option Int
  maxH : Option Int
  minW : Option Int
  maxW : Option Int
  yHint : Option ℚ
  xHint : Option ℚ
  anchor : Anchor
deriving DecidableEq

/-- The `Widget.size` setter (widget.py lines 138-147): both components are
clamped with `clamp(component, 1, None)` before being stored. -/
def setSize (g : WGeom) (h w : Int) : WGeom :=
  { g with height := clampI h (some 1) none, width := clampI w (some 1) none }

/-- `Widget.__init__` (widget.py line 112): the constructor writes the raw field
`self._size = Size(*size)` directly, without going through the `size` setter,
so the given size is stored unclamped.  Position and hints are likewise stored
raw. -/
def initWidget (h w top left : Int) (hHint wHint : Option ℚ)
    (minH maxH minW maxW : Option Int) (yHint xHint : Option ℚ) (a : Anchor) : WGeom :=
  { height := h, width := w, top := top, left := left,
    hHint := hHint, wHint := wHint,
    minH := minH, maxH := maxH, minW := minW, maxW := maxW,
    yHint := yHint, xHint := xHint, anchor := a }

/-- Size-hint half of `Widget.update_geometry` (widget.py lines 426-438): when
either size-hint component is set, each hinted dimension becomes
`clamp(round(hint * parent_dimension), min, max)`, an unhinted dimension keeps
its current value, and the pair is assigned through the `size` setter. -/
def applySizeHints (ph pw : Int) (g : WGeom) : WGeom :=
  if g.hHint.isSome || g.wHint.isSome then
    setSize g
      (match g.hHint with
       | none => g.height
       | some hh => clampI (pyRound (hh * (ph : ℚ))) g.minH g.maxH)
      (match g.wHint with
       | none => g.width
       | some wh => clampI (pyRound (wh * (pw : ℚ))) g.minW g.maxW)
  else g

/-- Anchor offset pair of `Widget.update_geometry` (widget.py lines 444-462),
computed from the widget's own current size; `center` is the property
`Point(height // 2, width // 2)` (Python floor division). -/
def anchorOffset (a : Anchor) (h w : Int) : Int × Int :=
  match a with
  | .topLeft => (0, 0)
  | .topRight => (0, w)
  | .bottomLeft => (h, 0)
  | .bottomRight => (h, w)
  | .center => (Int.fdiv h 2, Int.fdiv w 2)
  | .topCenter => (0, Int.fdiv w 2)
  | .bottomCenter => (h, Int.fdiv w 2)
  | .leftCenter => (Int.fdiv h 2, 0)
  | .rightCenter => (Int.fdiv h 2, w)

/-- Position-hint half of `Widget.update_geometry` (widget.py lines 440-468):
if both position-hint components are unset nothing happens; otherwise the
anchor offset is computed from the (possibly just-updated) size and each hinted
coordinate becomes `int(parent_dimension * hint) - offset` (`int` truncates
toward zero). -/
def applyPosHints (ph pw : Int) (g : WGeom) : WGeom :=
  if g.yHint.isNone && g.xHint.isNone then g
  else
    let off := anchorOffset g.anchor g.height g.width
    let g1 :=
      match g.yHint with
      | none => g
      | some yh => { g with top := pyTrunc ((ph : ℚ) * yh) - off.1 }
    match g.xHint with
    | none => g1
    | some xh => { g1 with left := pyTrunc ((pw : ℚ) * xh) - off.2 }

/-- `Widget.update_geometry` (widget.py lines 417-468) for a widget that has a
parent of size `(ph, pw)`: size hints are applied first (through the `size`
setter), then position hints. -/
def updateGeometry (ph pw : Int) (g : WGeom) : WGeom :=
  applyPosHints ph pw (applySizeHints ph pw g)

theorem clampI_one_none (v : Int) : clampI v (some 1) none = max 1 v := by
  simp only [clampI]
  split <;> omega

theorem clampI_one_none_idem (v : Int) :
    clampI (clampI v (some 1) none) (some 1) none = clampI v (some 1) none := by
  rw [clampI_one_none, clampI_one_none]
  omega

theorem applySizeHints_top (ph pw : Int) (g : WGeom) :
    (applySizeHints ph pw g).top = g.top := by
  unfold applySizeHints setSize
  split <;> rfl

theorem applySizeHints_left (ph pw : Int) (g : WGeom) :
    (applySizeHints ph pw g).left = g.left := by
  unfold applySizeHints setSize
  split <;> rfl

theorem applySizeHints_hints (ph pw : Int) (g : WGeom) :
    (applySizeHints ph pw g).hHint = g.hHint ∧ (applySizeHints ph pw g).wHint = g.wHint
  ∧ (applySizeHints ph pw g).minH = g.minH ∧ (applySizeHints ph pw g).maxH = g.maxH
  ∧ (applySizeHints ph pw g).minW = g.minW ∧ (applySizeHints ph pw g).maxW = g.maxW
  ∧ (applySizeHints ph pw g).yHint = g.yHint ∧ (applySizeHints ph pw g).xHint = g.xHint
  ∧ (applySizeHints ph pw g).anchor = g.anchor := by
  unfold applySizeHints setSize
  split <;> simp

theorem applyPosHints_size (ph pw : Int) (g : WGeom) :
    (applyPosHints ph pw g).height = g.height ∧ (applyPosHints ph pw g).width = g.width := by
  rcases g with ⟨ht, wd, tp, lf, hh, wh, mh, Mh, mw, Mw, yh, xh, a⟩
  cases yh <;> cases xh <;> simp [applyPosHints]

theorem applyPosHints_hints (ph pw : Int) (g : WGeom) :
    (applyPosHints ph pw g).hHint = g.hHint ∧ (applyPosHints ph pw g).wHint = g.wHint
  ∧ (applyPosHints ph pw g).minH = g.minH ∧ (applyPosHints ph pw g).maxH = g.maxH
  ∧ (applyPosHints ph pw g).minW = g.minW ∧ (applyPosHints ph pw g).maxW = g.maxW
  ∧ (applyPosHints ph pw g).yHint = g.yHint ∧ (applyPosHints ph pw g).xHint = g.xHint
  ∧ (applyPosHints ph pw g).anchor = g.anchor := by
  rcases g with ⟨ht, wd, tp, lf, hh, wh, mh, Mh, mw, Mw, yh, xh, a⟩
  cases yh <;> cases xh <;> simp [applyPosHints]

theorem applySizeHints_height (ph pw : Int) (g : WGeom) :
    (applySizeHints ph pw g).height =
      if g.hHint.isSome || g.wHint.isSome then
        clampI
          (match g.hHint with
           | none => g.height
           | some hh => clampI (pyRound (hh * (ph : ℚ))) g.minH g.maxH)
          (some 1) none
      else g.height := by
  unfold applySizeHints setSize
  split <;> simp_all

theorem applySizeHints_width (ph pw : Int) (g : WGeom) :
    (applySizeHints ph pw g).width =
      if g.hHint.isSome || g.wHint.isSome then
        clampI
          (match g.wHint with
           | none => g.width
           | some wh => clampI (pyRound (wh * (pw : ℚ))) g.minW g.maxW)
          (some 1) none
      else g.width := by
  unfold applySizeHints setSize
  split <;> simp_all

theorem applyPosHints_top (ph pw : Int) (g : WGeom) :
    (applyPosHints ph pw g).top =
      match g.yHint with
      | none => g.top
      | some yh => pyTrunc ((ph : ℚ) * yh) - (anchorOffset g.anchor g.height g.width).1 := by
  rcases g with ⟨ht, wd, tp, lf, hh, wh, mh, Mh, mw, Mw, yh, xh, a⟩
  cases yh <;> cases xh <;> simp [applyPosHints]

theorem applyPosHints_left (ph pw : Int) (g : WGeom) :
    (applyPosHints ph pw g).left =
      match g.xHint with
      | none => g.left
      | some xh => pyTrunc ((pw : ℚ) * xh) - (anchorOffset g.anchor g.height g.width).2 := by
  rcases g with ⟨ht, wd, tp, lf, hh, wh, mh, Mh, mw, Mw, yh, xh, a⟩
  cases yh <;> cases xh <;> simp [applyPosHints]

theorem updateGeometry_height (ph pw : Int) (g : WGeom) :
    (updateGeometry ph pw g).height =
      if g.hHint.isSome || g.wHint.isSome then
        max 1
          (match g.hHint with
           | none => g.height
           | some hh => clampI (pyRound (hh * (ph : ℚ))) g.minH g.maxH)
      else g.height := by
  rw [updateGeometry, (applyPosHints_size ph pw (applySizeHints ph pw g)).1,
    applySizeHints_height]
  split <;> simp [clampI_one_none]

theorem updateGeometry_width (ph pw : Int) (g : WGeom) :
    (updateGeometry ph pw g).width =
      if g.hHint.isSome || g.wHint.isSome then
        max 1
          (match g.wHint with
           | none => g.width
           | some wh => clampI (pyRound (wh * (pw : ℚ))) g.minW g.maxW)
      else g.width := by
  rw [updateGeometry, (applyPosHints_size ph pw (applySizeHints ph pw g)).2,
    applySizeHints_width]
  split <;> simp [clampI_one_none]

theorem updateGeometry_hints (ph pw : Int) (g : WGeom) :
    (updateGeometry ph pw g).hHint = g.hHint ∧ (updateGeometry ph pw g).wHint = g.wHint
  ∧ (updateGeometry ph pw g).minH = g.minH ∧ (updateGeometry ph pw g).maxH = g.maxH
  ∧ (updateGeometry ph pw g).minW = g.minW ∧ (updateGeometry ph pw g).maxW = g.maxW
  ∧ (updateGeometry ph pw g).yHint = g.yHint ∧ (updateGeometry ph pw g).xHint = g.xHint
  ∧ (updateGeometry ph pw g).anchor = g.anchor := by
  rcases g with ⟨ht, wd, tp, lf, hh, wh, mh, Mh, mw, Mw, yh, xh, a⟩
  cases hh <;> cases wh <;> cases yh <;> cases xh <;>
    simp [updateGeometry, applySizeHints, applyPosHints, setSize]

theorem updateGeometry_top (ph pw : Int) (g : WGeom) :
    (updateGeometry ph pw g).top =
      match g.yHint with
      | none => g.top
      | some yh =>
        pyTrunc ((ph : ℚ) * yh) -
          (anchorOffset g.anchor (updateGeometry ph pw g).height
            (updateGeometry ph pw g).width).1 := by
  have hs := applySizeHints_hints ph pw g
  have hp := applyPosHints_size ph pw (applySizeHints ph pw g)
  have ht := applySizeHints_top ph pw g
  rw [updateGeometry, applyPosHints_top, hs.2.2.2.2.2.2.1, hs.2.2.2.2.2.2.2.2, ht]
  cases g.yHint <;> simp [updateGeometry, hp.1, hp.2]

theorem updateGeometry_left (ph pw : Int) (g : WGeom) :
    (updateGeometry ph pw g).left =
      match g.xHint with
      | none => g.left
      | some xh =>
        pyTrunc ((pw : ℚ) * xh) -
          (anchorOffset g.anchor (updateGeometry ph pw g).height
            (updateGeometry ph pw g).width).2 := by
  have hs := applySizeHints_hints ph pw g
  have hp := applyPosHints_size ph pw (applySizeHints ph pw g)
  have hl := applySizeHints_left ph pw g
  rw [updateGeometry, applyPosHints_left, hs.2.2.2.2.2.2.2.1, hs.2.2.2.2.2.2.2.2, hl]
  cases g.xHint <;> simp [updateGeometry, hp.1, hp.2]

/-- C9: for every node with a parent and fixed hinted inputs and fixed parent
size, running `update_geometry` twice produces the same size and position as
running it once (geometry resolution is idempotent). -/
theorem C9_update_geometry_idempotent (ph pw : Int) (g : WGeom) :
    updateGeometry ph pw (updateGeometry ph pw g) = updateGeometry ph pw g := by
  obtain ⟨e1, e2, e3, e4, e5, e6, e7, e8, e9⟩ := updateGeometry_hints ph pw g
  have hH : (updateGeometry ph pw (updateGeometry ph pw g)).height =
      (updateGeometry ph pw g).height := by
    rw [updateGeometry_height ph pw (updateGeometry ph pw g), e1, e2, e3, e4,
      updateGeometry_height ph pw g]
    cases hhh : g.hHint <;> cases hww : g.wHint <;> simp [hhh, hww]
  have hW : (updateGeometry ph pw (updateGeometry ph pw g)).width =
      (updateGeometry ph pw g).width := by
    rw [updateGeometry_width ph pw (updateGeometry ph pw g), e1, e2, e5, e6,
      updateGeometry_width ph pw g]
    cases hhh : g.hHint <;> cases hww : g.wHint <;> simp [hhh, hww]
  have hT : (updateGeometry ph pw (updateGeometry ph pw g)).top =
      (updateGeometry ph pw g).top := by
    rw [updateGeometry_top ph pw (updateGeometry ph pw g), e7, e9, hH, hW]
    cases hy : g.yHint
    · rfl
    · rw [updateGeometry_top ph pw g, hy]
  have hL : (updateGeometry ph pw (updateGeometry ph pw g)).left =
      (updateGeometry ph pw g).left := by
    rw [updateGeometry_left ph pw (updateGeometry ph pw g), e8, e9, hH, hW]
    cases hx : g.xHint
    · rfl
    · rw [updateGeometry_left ph pw g, hx]
  obtain ⟨f1, f2, f3, f4, f5, f6, f7, f8, f9⟩ :=
    updateGeometry_hints ph pw (updateGeometry ph pw g)
  exact WGeom.ext hH hW hT hL f1 f2 f3 f4 f5 f6 f7 f8 f9

/-- C2 (amended): a size assignment through the `Widget.size` setter always
leaves height and width at least 1, and `update_geometry` preserves this
invariant; construction (`Widget.__init__`) and `Window.resize` write the raw
size field without clamping, so the invariant does not hold after those two
operations (see the counterexample). -/
theorem C2_min_size_after_setter_and_resolution :
    (∀ (g : WGeom) (h w : Int), 1 ≤ (setSize g h w).height ∧ 1 ≤ (setSize g h w).width)
  ∧ (∀ (ph pw : Int) (g : WGeom), 1 ≤ g.height → 1 ≤ g.width →
      1 ≤ (updateGeometry ph pw g).height ∧ 1 ≤ (updateGeometry ph pw g).width) := by
  constructor
  · intro g h w
    constructor <;> simp [setSize, clampI_one_none]
  · intro ph pw g hgh hgw
    constructor
    · rw [updateGeometry_height]
      split
      · cases g.hHint <;> simp
      · exact hgh
    · rw [updateGeometry_width]
      split
      · cases g.wHint <;> simp
      · exact hgw

/-- Witness for C2: the size setter and geometry resolution at concrete inputs. -/
theorem C2_witness :
    1 ≤ (updateGeometry 20 20 (initWidget 3 4 0 0 none none none none none none
      none none .topLeft)).height
  ∧ 1 ≤ (updateGeometry 20 20 (initWidget 3 4 0 0 none none none none none none
      none none .topLeft)).width :=
  C2_min_size_after_setter_and_resolution.2 20 20
    (initWidget 3 4 0 0 none none none none none none none none .topLeft)
    (by decide) (by decide)

/-- Counterexample for C2 as stated: `Widget.__init__` with `size=(0, 0)` stores
height 0 (the constructor writes `self._size = Size(*size)` without clamping),
so after the operation "construction" the height is not at least 1. -/
theorem C2_counterexample :
    ¬ 1 ≤ (initWidget 0 0 0 0 none none none none none none none none .topLeft).height := by
  decide

/-- C5 (amended): position-hint resolution sets each hinted coordinate to
`int(parent_dimension * hint)` (truncation toward zero, which equals the
claim's `floor` only for non-negative products) minus the anchor offset
computed from the node's resolved size, and leaves coordinates of unhinted
axes at their current value; in particular a (10,10) node with `center` anchor
and `pos_hint (0.5, 0.5)` in a (20,20) parent resolves to pos (5,5). -/
theorem C5_pos_hint_resolution (ph pw : Int) (g : WGeom) :
    ((updateGeometry ph pw g).top =
      match g.yHint with
      | none => g.top
      | some yh =>
        pyTrunc ((ph : ℚ) * yh) -
          (anchorOffset g.anchor (updateGeometry ph pw g).height
            (updateGeometry ph pw g).width).1)
  ∧ ((updateGeometry ph pw g).left =
      match g.xHint with
      | none => g.left
      | some xh =>
        pyTrunc ((pw : ℚ) * xh) -
          (anchorOffset g.anchor (updateGeometry ph pw g).height
            (updateGeometry ph pw g).width).2)
  ∧ (updateGeometry 20 20 (initWidget 10 10 0 0 none none none none none none
      (some (1 / 2)) (some (1 / 2)) .center)).top = 5
  ∧ (updateGeometry 20 20 (initWidget 10 10 0 0 none none none none none none
      (some (1 / 2)) (some (1 / 2)) .center)).left = 5 := by
  refine ⟨updateGeometry_top ph pw g, updateGeometry_left ph pw g, ?_, ?_⟩
  · rw [updateGeometry_top, updateGeometry_height, updateGeometry_width]
    norm_num [initWidget, anchorOffset, pyTrunc, ratFloor_eq_floor]
    decide
  · rw [updateGeometry_left, updateGeometry_height, updateGeometry_width]
    norm_num [initWidget, anchorOffset, pyTrunc, ratFloor_eq_floor]
    decide

/-- Counterexample for C5 as stated: with a negative position hint the code's
`int()` truncates toward zero, not toward minus infinity, so the resolved
coordinate differs from the claim's `floor(hint * parent_dimension) - offset`:
for `y_hint = -1/2` in a parent of height 5 with top-left anchor the code
stores top `-2` while the claim demands `⌊-5/2⌋ = -3`. -/
theorem C5_counterexample :
    (updateGeometry 5 5 (initWidget 1 1 0 0 none none none none none none
      (some (-1 / 2)) none .topLeft)).top = -2
  ∧ ⌊((5 : Int) : ℚ) * (-1 / 2 : ℚ)⌋ -
      (anchorOffset .topLeft 1 1).1 = -3 := by
  constructor
  · rw [updateGeometry_top]
    norm_num [initWidget, anchorOffset, pyTrunc, ratFloor_eq_floor, ratCeil_eq_ceil,
      Int.ceil_neg]
  · norm_num [anchorOffset]

/-- C6 (amended): when at least one size-hint component is set, each hinted
dimension resolves to `round(hint * parent_dimension)` clamped to `[min, max]`
(unset bound unbounded) and then raised to a minimum of 1 by the size setter;
the unhinted dimension keeps its current value, likewise raised to a minimum
of 1; in particular a (10,10) node with `size_hint (0.5, None)` in a (20,20)
parent resolves to height 10 and width 10. -/
theorem C6_size_hint_resolution (ph pw : Int) (g : WGeom) :
    (∀ hh, g.hHint = some hh →
      (updateGeometry ph pw g).height = max 1 (clampI (pyRound (hh * (ph : ℚ))) g.minH g.maxH))
  ∧ (∀ wh, g.wHint = some wh →
      (updateGeometry ph pw g).width = max 1 (clampI (pyRound (wh * (pw : ℚ))) g.minW g.maxW))
  ∧ (g.hHint = none → g.wHint.isSome → (updateGeometry ph pw g).height = max 1 g.height)
  ∧ (g.wHint = none → g.hHint.isSome → (updateGeometry ph pw g).width = max 1 g.width)
  ∧ (updateGeometry 20 20 (initWidget 10 10 0 0 (some (1 / 2)) none none none none none
      none none .topLeft)).height = 10
  ∧ (updateGeometry 20 20 (initWidget 10 10 0 0 (some (1 / 2)) none none none none none
      none none .topLeft)).width = 10 := by
  refine ⟨?_, ?_, ?_, ?_, ?_, ?_⟩
  · intro hh hhh
    rw [updateGeometry_height]
    simp [hhh]
  · intro wh hww
    rw [updateGeometry_width]
    simp [hww]
  · intro hnone hsome
    rw [updateGeometry_height]
    simp [hnone, hsome]
  · intro hnone hsome
    rw [updateGeometry_width]
    simp [hnone, hsome]
  · rw [updateGeometry_height]
    norm_num [initWidget, clampI, pyRound, ratFloor_eq_floor]
  · rw [updateGeometry_width]
    norm_num [initWidget, clampI_one_none]

/-- Witness for C6: the hinted-height clause applied at a concrete node. -/
theorem C6_witness :
    (updateGeometry 20 20 (initWidget 7 7 0 0 (some (1 / 4)) none none none none none
      none none .topLeft)).height =
      max 1 (clampI (pyRound ((1 / 4 : ℚ) * ((20 : Int) : ℚ))) none none) :=
  (C6_size_hint_resolution 20 20 (initWidget 7 7 0 0 (some (1 / 4)) none none none none
    none none none .topLeft)).1 (1 / 4) rfl

/-- Counterexample for C6 as stated: with `size_hint = (0.0, None)` in a (20,20)
parent the claim's formula gives `clamp(round(0 * 20), None, None) = 0`, but the
code stores height 1 because the size assignment goes through the setter's
minimum-1 clamp. -/
theorem C6_counterexample :
    (updateGeometry 20 20 (initWidget 7 7 0 0 (some 0) none none none none none
      none none .topLeft)).height = 1
  ∧ clampI (pyRound ((0 : ℚ) * ((20 : Int) : ℚ))) none none = 0 := by
  constructor
  · rw [updateGeometry_height]
    norm_num [initWidget, clampI, pyRound, ratFloor_eq_floor]
  · norm_num [clampI, pyRound, ratFloor_eq_floor]

mutual
/-- A widget tree node for event dispatch (widget.py lines 603-668): `id`
labels the node, `enabled` is `is_enabled`, `handled` is the truthiness of the
value returned by the node's own handler (`on_press`, `on_click`,
`on_double_click`, `on_triple_click` or `on_paste`; all five dispatchers have
the identical shape), and `children` is the ordered child list (last = topmost). -/
inductive WTree : Type where
  | node (id : Nat) (enabled : Bool) (handled : Bool) (children : WForest)

/-- An ordered list of child widgets, head = first (bottom-most) child. -/
inductive WForest : Type where
  | nil : WForest
  | cons : WTree → WForest → WForest
end

mutual
/-- The dispatchers `Widget.dispatch_press` and friends (widget.py
lines 603-668): `any(child.dispatch(event) for child in reversed(children) if
child.is_enabled) or self.handler(event)`.  Returns the handled flag together
with the list of node ids whose handler was invoked, in invocation order
(Python's `any` over a generator short-circuits, so handler invocations stop
at the first truthy result). -/
def dispatchT : WTree → Bool × List Nat
  | .node i _ h cs =>
    let p := dispatchRevT cs
    if p.1 then p else (h, p.2 ++ [i])

/-- Dispatch over `reversed(children)`: the children list is consumed from its
end (topmost child first), skipping disabled children entirely. -/
def dispatchRevT : WForest → Bool × List Nat
  | .nil => (false, [])
  | .cons t ts =>
    let p := dispatchRevT ts
    if p.1 then p
    else
      match t with
      | .node _ e _ _ =>
        if e then
          let q := dispatchT t
          (q.1, p.2 ++ q.2)
        else p
end

mutual
/-- Probe sequence described by the spec: visit children in reverse list order
(topmost first), depth first, skipping disabled subtrees, with the node's own
handler last; each entry is the node id paired with its handler's result. -/
def probeSeq : WTree → List (Nat × Bool)
  | .node i _ h cs => probeSeqRev cs ++ [(i, h)]

/-- Probe sequence of a child list, visited from its end (topmost first). -/
def probeSeqRev : WForest → List (Nat × Bool)
  | .nil => []
  | .cons t ts =>
    probeSeqRev ts ++
      (match t with
       | .node _ e _ _ => if e then probeSeq t else [])
end

/-- Whether some probed handler in the sequence returned a truthy value. -/
def anyHandled (l : List (Nat × Bool)) : Bool :=
  l.any (fun p => p.2)

/-- Ids of the probes actually performed under the first-handler-wins policy:
the sequence is cut just after the first truthy handler. -/
def takeThrough : List (Nat × Bool) → List Nat
  | [] => []
  | p :: rest => if p.2 then [p.1] else p.1 :: takeThrough rest

theorem anyHandled_append (a b : List (Nat × Bool)) :
    anyHandled (a ++ b) = (anyHandled a || anyHandled b) := by
  simp [anyHandled, List.any_append]

theorem takeThrough_append (a b : List (Nat × Bool)) :
    takeThrough (a ++ b) =
      takeThrough a ++ (if anyHandled a then [] else takeThrough b) := by
  induction a with
  | nil => simp [takeThrough, anyHandled]
  | cons p rest ih =>
    rcases p with ⟨i, hb⟩
    cases hb
    · have h1 : takeThrough (((i, false) :: rest) ++ b) = i :: takeThrough (rest ++ b) := rfl
      have h2 : takeThrough ((i, false) :: rest) = i :: takeThrough rest := rfl
      have h3 : anyHandled ((i, false) :: rest) = anyHandled rest := by
        simp [anyHandled]
      rw [h1, h2, h3, ih, List.cons_append]
    · have h1 : takeThrough (((i, true) :: rest) ++ b) = [i] := rfl
      have h2 : takeThrough ((i, true) :: rest) = [i] := rfl
      have h3 : anyHandled ((i, true) :: rest) = true := by simp [anyHandled]
      rw [h1, h2, h3]
      simp

mutual
theorem dispatchT_spec (t : WTree) :
    dispatchT t = (anyHandled (probeSeq t), takeThrough (probeSeq t)) := by
  match t with
  | .node i e h cs =>
    have ih := dispatchRevT_spec cs
    rw [dispatchT, probeSeq, ih, anyHandled_append, takeThrough_append]
    cases hb : anyHandled (probeSeqRev cs) <;>
      cases h <;> simp [anyHandled, takeThrough]

theorem dispatchRevT_spec (f : WForest) :
    dispatchRevT f = (anyHandled (probeSeqRev f), takeThrough (probeSeqRev f)) := by
  match f with
  | .nil => rfl
  | .cons t ts =>
    have iht := dispatchT_spec t
    have ihts := dispatchRevT_spec ts
    simp only [dispatchRevT, probeSeqRev]
    rw [ihts, anyHandled_append, takeThrough_append]
    match t with
    | .node i e h cs =>
      cases hb : anyHandled (probeSeqRev ts) <;> cases e <;>
        simp [iht, anyHandled, takeThrough]
end

/-- C3: for every node and every input event kind, dispatch is equivalent to
probing handlers along the spec's visit order — children in reverse list order
(topmost first), depth first, disabled children and their subtrees skipped
entirely, the node's own handler last — stopping at the first handler that
returns a truthy value: the dispatcher's result is whether some probe in that
order is truthy, and the handlers actually invoked are exactly the prefix of
the visit order up to and including the first truthy probe (so a node's own
handler runs only if no descendant handled the event). -/
theorem C3_dispatch_order (t : WTree) :
    dispatchT t = (anyHandled (probeSeq t), takeThrough (probeSeq t)) :=
  dispatchT_spec t

/-- Paired source/destination slice bounds computed by
`Widget.render_intersection` (widget.py lines 767-812): source top/bottom and
left/right within the widget, destination top/bottom and left/right within the
ancestor buffer view. -/
structure SubRects : Type where
  st : Int
  dt : Int
  sb : Int
  db : Int
  sl : Int
  dl : Int
  sr : Int
  dr : Int
deriving DecidableEq

/-- `Widget.render_intersection` (widget.py lines 713-812) for a widget with
the given `top`, `left`, `height`, `width` and a destination rectangle given by
row slice `[destT, destB)` and column slice `[destL, destR)`.  Returns `none`
when the early-exit test `wt >= h or wb < 0 or wl >= w or wr < 0` fires (the
method returns before painting, so no paint call happens and the subtree is
never visited); otherwise returns the slice bounds with which `self.render` is
invoked (painting the widget and recursing into its children). -/
def renderIntersection (top left height width destT destB destL destR : Int) :
    Option SubRects :=
  let t := destT
  let h := destB - destT
  let l := destL
  let w := destR - destL
  let wt := top - t
  let wb := top + height - t
  let wl := left - l
  let wr := left + width - l
  if wt ≥ h ∨ wb < 0 ∨ wl ≥ w ∨ wr < 0 then none
  else
    let rows :=
      if wt < 0 then
        let st := -wt
        if wb ≥ h then (st, 0, h + st, h) else (st, 0, height, wb)
      else
        let dt := wt
        if wb ≥ h then (0, dt, h - dt, h) else (0, dt, height, wb)
    let cols :=
      if wl < 0 then
        let sl := -wl
        if wr ≥ w then (sl, 0, w + sl, w) else (sl, 0, width, wr)
      else
        let dl := wl
        if wr ≥ w then (0, dl, w - dl, w) else (0, dl, width, wr)
    some ⟨rows.1, rows.2.1, rows.2.2.1, rows.2.2.2,
          cols.1, cols.2.1, cols.2.2.1, cols.2.2.2⟩

/-- The claim's notion of a widget lying entirely outside the destination: the
half-open row interval `[top, top + height)` or the column interval
`[left, left + width)` has empty intersection with the destination rectangle. -/
def emptyIntersection (top left height width destT destB destL destR : Int) : Bool :=
  min (top + height) destB ≤ max top destT ∨ min (left + width) destR ≤ max left destL

/-- C4 (amended): `render_intersection` skips a widget (returns before any
paint call, never recursing into children) exactly when `top ≥ dest_bottom`,
`bottom < dest_top`, `left ≥ dest_right` or `right < dest_left`; every skipped
widget has empty intersection with the destination, but the converse fails on
the boundary cases `bottom = dest_top` and `right = dest_left` (see the
counterexample), where `render` is still invoked on an empty sub-rectangle. -/
theorem C4_offscreen_skip (top left height width destT destB destL destR : Int) :
    (renderIntersection top left height width destT destB destL destR = none ↔
      (top ≥ destB ∨ top + height < destT ∨ left ≥ destR ∨ left + width < destL))
  ∧ (renderIntersection top left height width destT destB destL destR = none →
      emptyIntersection top left height width destT destB destL destR = true) := by
  constructor
  · unfold renderIntersection
    dsimp only
    split
    · exact iff_of_true rfl (by omega)
    · exact iff_of_false (by simp) (by omega)
  · intro hn
    rw [renderIntersection] at hn
    dsimp only at hn
    unfold emptyIntersection
    split at hn
    · simp only [decide_eq_true_eq]
      omega
    · exact absurd hn (by simp)

/-- Witness for C4: a widget at top 10 lying below a destination of five rows
is skipped, and the skip implies the intersection is empty. -/
theorem C4_witness :
    renderIntersection 10 0 1 1 0 5 0 5 = none
  ∧ emptyIntersection 10 0 1 1 0 5 0 5 = true := by
  have hn : renderIntersection 10 0 1 1 0 5 0 5 = none := by decide
  exact ⟨hn, (C4_offscreen_skip 10 0 1 1 0 5 0 5).2 hn⟩

/-- Counterexample for C4 as stated: a widget with `top = -1`, `height = 1`
(so `bottom = 0`) has empty row intersection with the destination rows
`[0, 5)`, yet the early-exit test `wb < 0` does not fire (`wb = 0`), so
`render_intersection` goes on to call `self.render` — a paint call that also
recurses into children — on the empty destination slice `[0, 0) x [0, 1)`. -/
theorem C4_counterexample :
    emptyIntersection (-1) 0 1 1 0 5 0 5 = true
  ∧ renderIntersection (-1) 0 1 1 0 5 0 5 = some ⟨1, 0, 1, 0, 0, 0, 1, 1⟩ := by
  constructor
  · decide
  · decide

/-- An RGB byte triple: one color channel entry of the `colors` array. -/
structure RGB : Type where
  r : Fin 256
  g : Fin 256
  b : Fin 256
deriving DecidableEq

/-- An RGBA texel of the `texture` array of a `Graphics` gadget. -/
structure Texel : Type where
  r : Fin 256
  g : Fin 256
  b : Fin 256
  a : Fin 256
deriving DecidableEq

/-- One screen cell as seen by `Graphics.render`: whether its glyph is already
the upper-half-block character, its foreground color (`colors[..., :3]`) and
its background color (`colors[..., 3:]`). -/
structure Cell : Type where
  isHalfBlock : Bool
  fore : RGB
  back : RGB
deriving DecidableEq

/-- Writing a float back into a uint8 numpy array with `casting="unsafe"`:
truncation toward zero followed by wraparound modulo 256 (the "implicit byte
truncation" the spec documents as unspecified; on in-range integral values it
is the identity, which is the only case the claims exercise). -/
def byteOfQ (q : ℚ) : Fin 256 :=
  ⟨((pyTrunc q) % 256).toNat, by omega⟩

/-- One color channel of the transparent-mode blend of `Graphics.render`
(graphics.py lines 302-330): `buffer = (texel_channel - existing_channel)`
as float, `buffer *= texel_alpha`, `buffer *= norm_alpha`, then
`existing_channel += buffer` cast back to uint8. -/
def blendChannel (normAlpha : ℚ) (texC texA ch : Fin 256) : Fin 256 :=
  byteOfQ ((((texC.val : ℚ) - (ch.val : ℚ)) * (texA.val : ℚ)) * normAlpha + (ch.val : ℚ))

/-- The transparent branch of `Graphics.render` (graphics.py lines 291-331) at
one covered cell.  The numpy operations involved are element-wise per cell, so
the per-rectangle pass is modelled cell-wise: `ancestorAlphas` lists the alphas
of the strictly-transparent ancestor `Graphics` nodes (the `math.prod` over
`self.ancestors()`), `alpha` is the node's own alpha, `texEven`/`texOdd` are
the two texels mapped to the cell.  Cells whose glyph is not the half-block
first get their foreground overwritten by their background (the `mask` copy,
graphics.py lines 296-297); both channels are then blended with
`norm_alpha = prod(ancestor alphas) * alpha / 255`, and the glyph becomes the
half-block character (`canvas[dst] = style_char("▀")`). -/
def blendCellTransparent (ancestorAlphas : List ℚ) (alpha : ℚ)
    (texEven texOdd : Texel) (c : Cell) : Cell :=
  let fore0 := if c.isHalfBlock then c.fore else c.back
  let normAlpha := ancestorAlphas.foldl (fun x y => x * y) 1 * alpha / 255
  { isHalfBlock := true
    fore := ⟨blendChannel normAlpha texEven.r texEven.a fore0.r,
             blendChannel normAlpha texEven.g texEven.a fore0.g,
             blendChannel normAlpha texEven.b texEven.a fore0.b⟩
    back := ⟨blendChannel normAlpha texOdd.r texOdd.a c.back.r,
             blendChannel normAlpha texOdd.g texOdd.a c.back.g,
             blendChannel normAlpha texOdd.b texOdd.a c.back.b⟩ }

theorem pyTrunc_natCast (n : Nat) : pyTrunc (n : ℚ) = n := by
  have h := pyTrunc_intCast (n : Int)
  simpa using h

theorem byteOfQ_byte (c : Fin 256) : byteOfQ ((c.val : ℚ)) = c := by
  have hlt : (c.val : Int) < 256 := by exact_mod_cast c.isLt
  apply Fin.ext
  simp only [byteOfQ, pyTrunc_natCast]
  omega

theorem blendChannel_zero (texC texA ch : Fin 256) :
    blendChannel 0 texC texA ch = ch := by
  rw [blendChannel, mul_zero, zero_add, byteOfQ_byte]

/-- C1 (amended): with `alpha = 0` the transparent blend pass leaves the
background color of every covered cell numerically unchanged, and leaves the
foreground unchanged exactly on cells whose glyph is already the half-block
character; every other covered cell has its foreground overwritten with its
own prior background by the flat-base mask copy that precedes the (zero-delta)
blend, and every covered cell's glyph becomes the half-block character. -/
theorem C1_alpha_zero_blend (ancestorAlphas : List ℚ) (texEven texOdd : Texel) (c : Cell) :
    blendCellTransparent ancestorAlphas 0 texEven texOdd c =
      { isHalfBlock := true
        fore := if c.isHalfBlock then c.fore else c.back
        back := c.back } := by
  unfold blendCellTransparent
  have hna : ancestorAlphas.foldl (fun x y => x * y) 1 * 0 / 255 = 0 := by
    rw [mul_zero, zero_div]
  rw [hna]
  simp [blendChannel_zero]

/-- Counterexample for C1 as stated: a covered cell whose glyph is not the
half-block and whose foreground (10,10,10) differs from its background
(20,20,20) gets its foreground changed to (20,20,20) by the blend pass even
though `alpha = 0`, so the foreground channel is not numerically unchanged. -/
theorem C1_counterexample :
    (blendCellTransparent [] 0 ⟨0, 0, 0, 0⟩ ⟨0, 0, 0, 0⟩
        ⟨false, ⟨10, 10, 10⟩, ⟨20, 20, 20⟩⟩).fore = ⟨20, 20, 20⟩
  ∧ (⟨20, 20, 20⟩ : RGB) ≠ ⟨10, 10, 10⟩ := by
  constructor
  · unfold blendCellTransparent
    have hna : ([] : List ℚ).foldl (fun x y => x * y) 1 * 0 / 255 = 0 := by
      rw [mul_zero, zero_div]
    rw [hna]
    simp [blendChannel_zero]
  · decide

/-- The `Graphics.alpha` setter (graphics.py lines 258-261):
`self._alpha = clamp(float(alpha), 0.0, 1.0)`. -/
def alphaSetter (x : ℚ) : ℚ := clampQ x 0 1

/-- C10: after every assignment to a `Graphics` node's `alpha` property the
stored value lies in `[0, 1]`: inputs below 0 are stored as 0, inputs above 1
are stored as 1, and in-range inputs are stored unchanged.  This holds for
every assignment because the property setter is the only writer (the
constructor also assigns through it). -/
theorem C10_alpha_clamped (x : ℚ) :
    0 ≤ alphaSetter x ∧ alphaSetter x ≤ 1
  ∧ (x < 0 → alphaSetter x = 0) ∧ (1 < x → alphaSetter x = 1)
  ∧ (0 ≤ x → x ≤ 1 → alphaSetter x = x) := by
  unfold alphaSetter clampQ
  split_ifs with h1 h2 <;>
    refine ⟨by linarith, by linarith, fun hx => ?_, fun hx => ?_, fun hx hy => ?_⟩ <;>
    first
    | rfl
    | linarith

/-- Witness for C10: the setter at the concrete inputs -3, 2 and 1/2. -/
theorem C10_witness :
    alphaSetter (-3) = 0 ∧ alphaSetter 2 = 1 ∧ alphaSetter (1 / 2) = 1 / 2 :=
  ⟨(C10_alpha_clamped (-3)).2.2.1 (by norm_num),
   (C10_alpha_clamped 2).2.2.2.1 (by norm_num),
   (C10_alpha_clamped (1 / 2)).2.2.2.2 (by norm_num) (by norm_num)⟩

/-- Modelled from the spec: `easings.lerp` (module `nurses_2/easings.py`, not
under `src/`), the component-wise linear interpolation between a start value
and a target value at progress `p`. -/
def lerpQ (a b p : ℚ) : ℚ := a + (b - a) * p

/-- Modelled from the spec: `Easing.LINEAR` (module `nurses_2/easings.py`, not
under `src/`), the identity easing. -/
def linearEasing (t : ℚ) : ℚ := t

/-- A tween-able property value as discriminated by the structural match in
`Widget.tween` (widget.py lines 862-877): an int scalar, a float scalar, an
int sequence (rounded per component with Python `round`), or a sequence of
floats with nullable entries (`None` components preserved unchanged). -/
inductive TweenVal : Type where
  | iScalar (n : Int)
  | fScalar (q : ℚ)
  | iSeq (ns : List Int)
  | fSeq (qs : List (Option ℚ))
deriving DecidableEq

/-- The per-tick interpolated value assigned by `Widget.tween` at eased
progress `p` (widget.py lines 862-879).  Sequences are paired with `zip`
(truncating to the shorter operand, as Python's `zip` does).  A shape mismatch
between start and target is a caller contract violation (the Python code would
fail at runtime); it is modelled as returning the start value and is excluded
by the `sameShape` hypothesis of the claims. -/
def tweenValueAt (start target : TweenVal) (p : ℚ) : TweenVal :=
  match start, target with
  | .iSeq s, .iSeq tg =>
    .iSeq ((s.zip tg).map (fun pr => pyRound (lerpQ (pr.1 : ℚ) (pr.2 : ℚ) p)))
  | .iScalar s, .iScalar tg => .iScalar (pyRound (lerpQ (s : ℚ) (tg : ℚ) p))
  | .fSeq s, .fSeq tg =>
    .fSeq ((s.zip tg).map (fun pr =>
      match pr.1, pr.2 with
      | none, _ => none
      | some a, some b => some (lerpQ a b p)
      | some a, none => some a))
  | .fScalar s, .fScalar tg => .fScalar (lerpQ s tg p)
  | s, _ => s

/-- Shape compatibility between a start value and a target value, the caller
contract of `Widget.tween`. -/
def sameShape : TweenVal → TweenVal → Bool
  | .iScalar _, .iScalar _ => true
  | .fScalar _, .fScalar _ => true
  | .iSeq s, .iSeq t => s.length == t.length
  | .fSeq s, .fSeq t =>
    s.length == t.length && (s.zip t).all (fun pr => pr.1.isNone || pr.2.isSome)
  | _, _ => false

/-- The `while (current_time := monotonic()) < end_time` loop of `Widget.tween`
(widget.py lines 859-884), with time measured from the tween start (so
`end_time = duration`): `times` is the successive clock readings; each reading
strictly before `duration` produces one assignment at eased progress
`easing(1 - (end_time - current_time) / duration)`, and the first reading at
or past `duration` exits the loop. -/
def tweenLoop (easing : ℚ → ℚ) (duration : ℚ) (start target : TweenVal) :
    List ℚ → List TweenVal
  | [] => []
  | c :: rest =>
    if c < duration then
      tweenValueAt start target (easing (1 - (duration - c) / duration)) ::
        tweenLoop easing duration start target rest
    else []

/-- Observable trace of one `Widget.tween` coroutine run for one property:
the values assigned to the property in order, the number of `on_progress`
calls, and the number of `on_complete` calls. -/
structure TweenTrace : Type where
  assignments : List TweenVal
  progressCalls : Nat
  completeCalls : Nat
deriving DecidableEq

/-- A full `Widget.tween` run (widget.py lines 852-890): the loop assignments,
then the final `setattr(self, prop, target)` writing the exact target, then a
single `on_complete()` call. -/
def tweenRun (easing : ℚ → ℚ) (duration : ℚ) (times : List ℚ)
    (start target : TweenVal) : TweenTrace :=
  let loopAssigns := tweenLoop easing duration start target times
  { assignments := loopAssigns ++ [target]
    progressCalls := loopAssigns.length
    completeCalls := 1 }

theorem lerpQ_zero (a b : ℚ) : lerpQ a b 0 = a := by
  simp [lerpQ]

theorem zipIntLerp_zero (s t : List Int) (h : s.length = t.length) :
    (s.zip t).map (fun pr => pyRound (lerpQ (pr.1 : ℚ) (pr.2 : ℚ) 0)) = s := by
  have hf : (fun pr : Int × Int => pyRound (lerpQ (pr.1 : ℚ) (pr.2 : ℚ) 0)) =
      fun pr : Int × Int => pr.1 := by
    funext pr
    rw [lerpQ_zero, pyRound_intCast]
  rw [hf]
  exact List.map_fst_zip s t (le_of_eq h)

theorem zipOptLerp_zero (s t : List (Option ℚ)) (h : s.length = t.length) :
    (s.zip t).map (fun pr =>
      match pr.1, pr.2 with
      | none, _ => none
      | some a, some b => some (lerpQ a b 0)
      | some a, none => some a) = s := by
  have hf : (fun pr : Option ℚ × Option ℚ =>
      match pr.1, pr.2 with
      | none, _ => none
      | some a, some b => some (lerpQ a b 0)
      | some a, none => some a) = fun pr : Option ℚ × Option ℚ => pr.1 := by
    funext pr
    rcases pr with ⟨a, b⟩
    cases a <;> cases b <;> simp [lerpQ_zero]
  rw [hf]
  exact List.map_fst_zip s t (le_of_eq h)

theorem tweenValueAt_zero (start target : TweenVal)
    (h : sameShape start target = true) : tweenValueAt start target 0 = start := by
  cases start <;> cases target <;> simp [sameShape] at h <;>
    simp only [tweenValueAt]
  case iScalar.iScalar => rw [lerpQ_zero, pyRound_intCast]
  case fScalar.fScalar => rw [lerpQ_zero]
  case iSeq.iSeq => rw [zipIntLerp_zero _ _ (by simpa using h)]
  case fSeq.fSeq => rw [zipOptLerp_zero _ _ h.1]

/-- C7: for every tween with linear easing whose start and target values have
matching shapes and whose duration is positive, the first loop tick (taken at
the tween's start time, `t = 0`) assigns exactly the start value `v0`; and when
the run completes, the final assignment is exactly the target value (written
directly, not through the interpolation) and the completion callback fires
exactly once. -/
theorem C7_tween_linear (start target : TweenVal) (duration : ℚ) (ts : List ℚ)
    (hshape : sameShape start target = true) (hd : 0 < duration) :
    (tweenRun linearEasing duration (0 :: ts) start target).assignments.head? = some start
  ∧ (tweenRun linearEasing duration (0 :: ts) start target).assignments.getLast? = some target
  ∧ (tweenRun linearEasing duration (0 :: ts) start target).completeCalls = 1 := by
  refine ⟨?_, ?_, rfl⟩
  · have hp : (1 : ℚ) - duration / duration = 0 := by
      rw [div_self (ne_of_gt hd), sub_self]
    simp [tweenRun, tweenLoop, hd, linearEasing, hp, tweenValueAt_zero start target hshape]
  · simp [tweenRun, List.getLast?_concat]

/-- Witness for C7: an integer tween from 2 to 7 over duration 1 sampled at
time 0. -/
theorem C7_witness :
    (tweenRun linearEasing 1 [0] (.iScalar 2) (.iScalar 7)).assignments.head? =
      some (.iScalar 2)
  ∧ (tweenRun linearEasing 1 [0] (.iScalar 2) (.iScalar 7)).assignments.getLast? =
      some (.iScalar 7)
  ∧ (tweenRun linearEasing 1 [0] (.iScalar 2) (.iScalar 7)).completeCalls = 1 :=
  C7_tween_linear (.iScalar 2) (.iScalar 7) 1 [] rfl (by norm_num)

/-- The per-property subscriber table of the `emitter` decorator (widget.py
lines 28-45): a `WeakKeyDictionary` mapping a source widget to the dictionary
of its subscribers (subscriber widget to action).  Widgets and actions are
labelled by naturals; dictionaries are association lists. -/
def lookupA {α : Type} : List (Nat × α) → Nat → Option α
  | [], _ => none
  | (k, v) :: rest, key => if k = key then some v else lookupA rest key

/-- Python's `dict.pop(key, None)`: remove the entry if present and return its
value, returning `None` (and leaving the dictionary unchanged) otherwise. -/
def dictPop : List (Nat × Nat) → Nat → Option Nat × List (Nat × Nat)
  | [], _ => (none, [])
  | (k, v) :: rest, key =>
    if k = key then (some v, rest)
    else
      let pr := dictPop rest key
      (pr.1, (k, v) :: pr.2)

/-- Replacement of the value stored at an existing key. -/
def storeA {α : Type} : List (Nat × α) → Nat → α → List (Nat × α)
  | [], _, _ => []
  | (k, v) :: rest, key, nv =>
    if k = key then (key, nv) :: rest else (k, v) :: storeA rest key nv

/-- `Widget.unsubscribe` (widget.py lines 595-601):
`setter.instances[source].pop(self, None)`.  The subscript `instances[source]`
is a plain dictionary lookup that raises `KeyError` when the source widget has
no entry at all in the setter's `instances` table (modelled as `Except.error`);
only when the source has an entry does `pop(self, None)` return the removed
action or `None`. -/
def unsubscribe (inst : List (Nat × List (Nat × Nat))) (source self : Nat) :
    Except Unit (Option Nat × List (Nat × List (Nat × Nat))) :=
  match lookupA inst source with
  | none => Except.error ()
  | some subs =>
    let pr := dictPop subs self
    Except.ok (pr.1, storeA inst source pr.2)

/-- C8 evaluated at the failing input and at a nearby passing input: when the
source widget has no entry in the emitter's `instances` table (nothing was
ever subscribed on that source and property), `unsubscribe` raises `KeyError`
instead of returning `None`; when the source has an entry but the caller never
subscribed, `unsubscribe` does return `None` without error. -/
theorem C8_unsubscribe_eval :
    unsubscribe [] 0 1 = Except.error ()
  ∧ unsubscribe [(0, [(5, 9)])] 0 1 = Except.ok (none, [(0, [(5, 9)])]) := by
  constructor
  · rfl
  · rfl

example : pyRound (1 / 2) = 0 := by norm_num [pyRound, ratFloor_eq_floor]
example : pyRound (5 / 2) = 2 := by norm_num [pyRound, ratFloor_eq_floor]
example : pyRound (3 / 2) = 2 := by norm_num [pyRound, ratFloor_eq_floor]
example : pyRound (-5 / 2) = -2 := by norm_num [pyRound, ratFloor_eq_floor]
example : pyTrunc (-5 / 2) = -2 := by
  norm_num [pyTrunc, ratFloor_eq_floor, ratCeil_eq_ceil, Int.ceil_neg]
example : pyTrunc (5 / 2) = 2 := by norm_num [pyTrunc, ratFloor_eq_floor]
example : clampI 0 (some 1) none = 1 := by decide
